import Mathlib

/-!
Verification development for the `asyncio-https-proxy` repository.

The Python sources are shallowly embedded: byte strings become `List Char`
(the proxy only ever decodes ASCII header data), fallible code returns
`Except PyExc`, the asyncio stream primitives (`readline`, `read(n)`,
`readuntil`) become pure functions on the remaining byte stream, and the
side effects of the forwarder (hook invocations, writes to the client or
the upstream) are recorded in an explicit event trace.
-/

deriving instance DecidableEq for Except

/-- Byte strings, modelled as lists of (ASCII) characters. -/
abbrev Bytes := List Char

/-- The Python exception classes that the embedded code can raise. -/
inductive PyExc where
  | valueError
  | connectionError
  | incompleteReadError
  | sslError
  | osError
  deriving DecidableEq, Repr

/-- A dynamically typed Python value, for attributes such as `HTTPRequest.port`
that the source can set to an `int`, a `str` (through the buggy tuple
unpacking) or `None` (from `urlparse`). -/
inductive PyVal where
  | vNone
  | vStr (s : Bytes)
  | vInt (n : Int)
  deriving DecidableEq, Repr

/-- Python `str.strip` whitespace set. -/
def pySpace (c : Char) : Bool :=
  c = ' ' || c = '\t' || c = '\n' || c = '\r' || c = '\x0b' || c = '\x0c'

/-- Python `str.strip()` (both ends). -/
def pyStrip (s : Bytes) : Bytes :=
  ((s.dropWhile pySpace).reverse.dropWhile pySpace).reverse

/-- Helper for the string splitters: prepend a character to the first piece. -/
def consHead (c : Char) : List Bytes → List Bytes
  | [] => [[c]]
  | h :: t => (c :: h) :: t

/-- Python `s.split(sep)` for a one-character separator: splits at every
occurrence, keeping empty pieces, `"".split(sep) == [""]`. -/
def pySplitChar (sep : Char) : Bytes → List Bytes
  | [] => [[]]
  | c :: rest =>
    if c = sep then [] :: pySplitChar sep rest
    else consHead c (pySplitChar sep rest)

/-- Python `s.split(sep, 1)` for a one-character separator, reported as
`none` when the separator does not occur (so that a tuple unpacking of the
result fails). -/
def splitOnceChar (sep : Char) : Bytes → Option (Bytes × Bytes)
  | [] => none
  | c :: rest =>
    if c = sep then some ([], rest)
    else
      match splitOnceChar sep rest with
      | none => none
      | some p => some (c :: p.1, p.2)

/-- Python `s.split("\r\n")`: left-to-right, non-overlapping. -/
def splitCRLF : Bytes → List Bytes
  | [] => [[]]
  | [c] => [[c]]
  | c :: d :: rest =>
    if c = '\r' ∧ d = '\n' then [] :: splitCRLF rest
    else consHead c (splitCRLF (d :: rest))

/-- Python `sep.join` for `sep = "\r\n"`. -/
def joinCRLF : List Bytes → Bytes
  | [] => []
  | [l] => l
  | l :: l2 :: ls => l ++ '\r' :: '\n' :: joinCRLF (l2 :: ls)

/-- Value of a single digit character, up to base 16. -/
def hexVal (c : Char) : Option Nat :=
  if '0' ≤ c ∧ c ≤ '9' then some (c.toNat - '0'.toNat)
  else if 'a' ≤ c ∧ c ≤ 'f' then some (c.toNat - 'a'.toNat + 10)
  else if 'A' ≤ c ∧ c ≤ 'F' then some (c.toNat - 'A'.toNat + 10)
  else none

/-- Accumulating digit parser: every character must be a digit below `base`. -/
def digitsValAux (base : Nat) (acc : Nat) : Bytes → Option Nat
  | [] => some acc
  | c :: rest =>
    match hexVal c with
    | some v => if v < base then digitsValAux base (acc * base + v) rest else none
    | none => none

/-- Nonempty all-digit parse in the given base. -/
def digitsVal (base : Nat) (s : Bytes) : Option Nat :=
  if s = [] then none else digitsValAux base 0 s

/-- Digit part of Python `int(s, base)`, allowing the `0x` prefix in base 16. -/
def pyIntDigits (base : Nat) (t : Bytes) : Option Nat :=
  match t with
  | '0' :: 'x' :: rest => if base = 16 then digitsVal 16 rest else digitsVal base t
  | '0' :: 'X' :: rest => if base = 16 then digitsVal 16 rest else digitsVal base t
  | _ => digitsVal base t

/-- Python `int(s, base)`: strips surrounding whitespace, allows one sign,
yields `none` where Python raises `ValueError`. -/
def pyInt (base : Nat) (s : Bytes) : Option Int :=
  match pyStrip s with
  | '-' :: rest => (pyIntDigits base rest).map (fun n => -(n : Int))
  | '+' :: rest => (pyIntDigits base rest).map (fun n => (n : Int))
  | t => (pyIntDigits base t).map (fun n => (n : Int))

/-! ### A model of `urllib.parse.urlparse`, restricted to what the request
parser consults: `hostname` and `port`.  External standard-library
collaborator of `http_request.py`. -/

/-- Characters allowed in a URL scheme after the initial letter. -/
def schemeChar (c : Char) : Bool :=
  c.isAlphanum || c = '+' || c = '-' || c = '.'

/-- Split a leading `scheme:`, validating the scheme characters. -/
def splitSchemeAux : Bytes → Option (Bytes × Bytes)
  | [] => none
  | c :: rest =>
    if c = ':' then some ([], rest)
    else if schemeChar c then
      match splitSchemeAux rest with
      | some p => some (c :: p.1, p.2)
      | none => none
    else none

/-- `urlparse` scheme recognition: a scheme needs a leading letter and a
colon; otherwise the whole input is treated as the path. -/
def urlAfterScheme (u : Bytes) : Bytes :=
  match u with
  | [] => []
  | c :: _ =>
    if c.isAlpha then
      match splitSchemeAux u with
      | some p => p.2
      | none => u
    else u

/-- The `netloc` component: present only after a `//`. -/
def urlNetloc (u : Bytes) : Bytes :=
  match urlAfterScheme u with
  | '/' :: '/' :: rest => rest.takeWhile (fun c => !(c == '/' || c == '?' || c == '#'))
  | _ => []

/-- Drop the userinfo: the part of the netloc after the last `@`. -/
def afterLastAt (s : Bytes) : Bytes :=
  (s.reverse.takeWhile (fun c => c != '@')).reverse

/-- `(hostname-part, port-part)` of a netloc: partition at the first colon. -/
def hostinfoSplit (netloc : Bytes) : Bytes × Option Bytes :=
  match splitOnceChar ':' (afterLastAt netloc) with
  | some p => (p.1, some p.2)
  | none => (afterLastAt netloc, none)

/-- `urlparse(u).hostname`: lower-cased host, `None` when empty. -/
def uriHostname (u : Bytes) : PyVal :=
  let h := (hostinfoSplit (urlNetloc u)).1.map Char.toLower
  if h = [] then PyVal.vNone else PyVal.vStr h

/-- `urlparse(u).port`: `None` for an absent or empty port, `ValueError`
for a non-numeric or out-of-range (not 0..65535) port. -/
def uriPort (u : Bytes) : Except PyExc (Option Int) :=
  match (hostinfoSplit (urlNetloc u)).2 with
  | none => .ok none
  | some [] => .ok none
  | some p =>
    match pyInt 10 p with
    | none => .error .valueError
    | some n => if 0 ≤ n ∧ n ≤ 65535 then .ok (some n) else .error .valueError

/-! ### `http_request.py` -/

/-- The attributes set by `HTTPRequest.parse_request_line`, together with
the request target (the local variable `path` of the source; the spec's
`url` field). -/
structure ReqLine where
  method : Bytes
  version : Bytes
  scheme : Bytes
  host : PyVal
  port : PyVal
  target : Bytes
  deriving DecidableEq, Repr

/-- Embedding of `HTTPRequest.parse_request_line` (`http_request.py` lines
13-35), exactly as written in the source: the CONNECT branch executes
`self.host, self.port = path.split(":")[0]`, a tuple unpacking of the part
of the target before the first colon, which succeeds only when that string
has exactly two characters (binding one character to each attribute) and
raises `ValueError` otherwise. -/
def parse_request_line (request_line : Bytes) : Except PyExc ReqLine :=
  match pySplitChar ' ' (pyStrip request_line) with
  | [m, path, v] =>
    let scheme := if m = "CONNECT".data then "https".data else "http".data
    if scheme = "https".data then
      if (splitOnceChar ':' path).isNone then .error .valueError
      else
        match (pySplitChar ':' path).head? with
        | some [a, b] => .ok ⟨m, v, scheme, PyVal.vStr [a], PyVal.vStr [b], path⟩
        | _ => .error .valueError
    else
      match uriPort path with
      | .error e => .error e
      | .ok p =>
        let port : Int :=
          match p with
          | some n => if n = 0 then 80 else n
          | none => 80
        .ok ⟨m, v, scheme, uriHostname path, PyVal.vInt port, path⟩
  | _ => .error .valueError

/-- Embedding of the loop body of `HTTPRequest.parse_headers`
(`http_request.py` lines 43-48): each nonempty line is split once on `:`
(`ValueError` when there is no colon, from the tuple unpacking), the name
is stripped, the value kept verbatim. -/
def parse_header_lines : List Bytes → Except PyExc (List (Bytes × Bytes))
  | [] => .ok []
  | l :: ls =>
    if l = [] then parse_header_lines ls
    else
      match splitOnceChar ':' l with
      | none => .error .valueError
      | some kv =>
        match parse_header_lines ls with
        | .error e => .error e
        | .ok hs => .ok ((pyStrip kv.1, kv.2) :: hs)

/-- Embedding of `HTTPRequest.parse_headers` (`http_request.py` lines 37-48). -/
def parse_headers (raw : Bytes) : Except PyExc (List (Bytes × Bytes)) :=
  parse_header_lines (splitCRLF raw)

/-- Embedding of `HTTPRequest.to_raw_headers` (`http_request.py` lines
59-66): `b"\r\n".join(f"{k}: {v}" ...) + b"\r\n\r\n"`. -/
def to_raw_headers (headers : List (Bytes × Bytes)) : Bytes :=
  joinCRLF (headers.map (fun kv => kv.1 ++ ':' :: ' ' :: kv.2)) ++ "\r\n\r\n".data

/-- Embedding of `HTTPRequest.get_first_header` (`http_request.py` lines
50-57); also the spec's case-insensitive `first(name)` lookup used by the
handler base class as `headers.first`. -/
def get_first_header (headers : List (Bytes × Bytes)) (key : Bytes) : Option Bytes :=
  match headers with
  | [] => none
  | kv :: rest =>
    if kv.1.map Char.toLower = key.map Char.toLower then some kv.2
    else get_first_header rest key

/-! ### Claim C1: the CONNECT branch of `parse_request_line` -/

/-- Claim C1 (code bug): on the repository's own test input
`b"CONNECT example.com:443 HTTP/1.1"` the source raises `ValueError`,
because `self.host, self.port = path.split(":")[0]` tuple-unpacks the
eleven-character string `"example.com"`; the tests
(`test_parse_connect_request_line`) and the spec demand
host `"example.com"`, port `443`. -/
theorem C1_connect_parse_raises :
    parse_request_line "CONNECT example.com:443 HTTP/1.1".data = .error .valueError := by
  rfl

/-! ### Claim C3: parse / serialise round-trip of the header block -/

/-- The composition `to_raw_headers ∘ parse_headers` whose idempotence the
spec asserts. -/
def parse_then_serialise (x : Bytes) : Except PyExc Bytes :=
  match parse_headers x with
  | .error e => .error e
  | .ok hs => .ok (to_raw_headers hs)

/-- Claim C3 counterexample: parse-then-serialise is not a fixed point.
Parsing keeps the leading space of a header value verbatim while
serialising inserts `": "`, so every cycle adds one more space:
`"Host: a"` becomes `"Host:  a"` becomes `"Host:   a"`. -/
theorem C3_roundtrip_not_fixed_point :
    parse_then_serialise "Host: a\r\n\r\n".data = .ok "Host:  a\r\n\r\n".data ∧
    parse_then_serialise "Host:  a\r\n\r\n".data = .ok "Host:   a\r\n\r\n".data ∧
    "Host:  a\r\n\r\n".data ≠ "Host:   a\r\n\r\n".data := by
  refine ⟨rfl, rfl, by decide⟩

/-- A header name as produced by the parser: already stripped, no colon,
no CR or LF. -/
def cleanKey (k : Bytes) : Prop :=
  pyStrip k = k ∧ ∀ c ∈ k, c ≠ ':' ∧ c ≠ '\r' ∧ c ≠ '\n'

/-- A header value with no CR or LF. -/
def cleanVal (v : Bytes) : Prop :=
  ∀ c ∈ v, c ≠ '\r' ∧ c ≠ '\n'

instance (k : Bytes) : Decidable (cleanKey k) := by
  unfold cleanKey; infer_instance

instance (v : Bytes) : Decidable (cleanVal v) := by
  unfold cleanVal; infer_instance

lemma consHead_cons (c : Char) (h : Bytes) (t : List Bytes) :
    consHead c (h :: t) = (c :: h) :: t := rfl

lemma splitCRLF_append (l m : Bytes) (h : ∀ c ∈ l, c ≠ '\r' ∧ c ≠ '\n') :
    splitCRLF (l ++ '\r' :: '\n' :: m) = l :: splitCRLF m := by
  induction l with
  | nil => simp [splitCRLF]
  | cons c l ih =>
    have hc : c ≠ '\r' ∧ c ≠ '\n' := h c (List.mem_cons_self c l)
    have hrest : ∀ x ∈ l, x ≠ '\r' ∧ x ≠ '\n' := by
      intro x hx; exact h x (List.mem_cons_of_mem c hx)
    cases l with
    | nil =>
      simp only [List.nil_append, List.cons_append]
      rw [splitCRLF]
      rw [if_neg (by simp [hc.1])]
      simp [splitCRLF, consHead]
    | cons d l2 =>
      simp only [List.cons_append]
      rw [splitCRLF]
      rw [if_neg (by simp [hc.1])]
      have ih2 := ih hrest
      rw [List.cons_append] at ih2
      rw [ih2]
      rfl

lemma splitOnceChar_append (k v : Bytes) (h : ∀ c ∈ k, c ≠ ':') :
    splitOnceChar ':' (k ++ ':' :: v) = some (k, v) := by
  induction k with
  | nil => simp [splitOnceChar]
  | cons c k ih =>
    have hc : c ≠ ':' := h c (List.mem_cons_self c k)
    have hrest : ∀ x ∈ k, x ≠ ':' := fun x hx => h x (List.mem_cons_of_mem c hx)
    simp only [List.cons_append]
    rw [splitOnceChar, if_neg hc, ih hrest]

/-- One serialised header line, as written by `to_raw_headers`. -/
def headerLine (p : Bytes × Bytes) : Bytes :=
  p.1 ++ ':' :: ' ' :: p.2

lemma headerLine_no_crlf (p : Bytes × Bytes) (hk : cleanKey p.1) (hv : cleanVal p.2) :
    ∀ c ∈ headerLine p, c ≠ '\r' ∧ c ≠ '\n' := by
  intro c hc
  unfold headerLine at hc
  rcases List.mem_append.mp hc with h1 | h2
  · exact ⟨(hk.2 c h1).2.1, (hk.2 c h1).2.2⟩
  · rcases h2 with _ | ⟨_, h3⟩
    · exact ⟨by decide, by decide⟩
    · rcases h3 with _ | ⟨_, h4⟩
      · exact ⟨by decide, by decide⟩
      · exact hv c h4

lemma parse_header_lines_cons (p : Bytes × Bytes) (ls : List Bytes)
    (hk : cleanKey p.1) :
    parse_header_lines (headerLine p :: ls) =
      match parse_header_lines ls with
      | .error e => .error e
      | .ok hs => .ok ((p.1, ' ' :: p.2) :: hs) := by
  have hne : headerLine p ≠ [] := by
    unfold headerLine
    intro hcontra
    have := congrArg List.length hcontra
    simp at this
  rw [parse_header_lines, if_neg hne]
  have hnocolon : ∀ c ∈ p.1, c ≠ ':' := fun c hc => (hk.2 c hc).1
  have : splitOnceChar ':' (headerLine p) = some (p.1, ' ' :: p.2) := by
    unfold headerLine
    exact splitOnceChar_append p.1 (' ' :: p.2) hnocolon
  rw [this]
  simp [hk.1]

/-- Claim C3 amended: the whitespace conventions of `parse_headers` and
`to_raw_headers` are not the same one, so the round-trip is not a fixed
point; instead serialise-then-parse prepends exactly one space to every
header value. -/
theorem C3_serialise_then_parse (hs : List (Bytes × Bytes))
    (h : ∀ p ∈ hs, cleanKey p.1 ∧ cleanVal p.2) :
    parse_headers (to_raw_headers hs) = .ok (hs.map fun p => (p.1, ' ' :: p.2)) := by
  induction hs with
  | nil => rfl
  | cons p t ih =>
    have hp := h p (List.mem_cons_self p t)
    have ht : ∀ q ∈ t, cleanKey q.1 ∧ cleanVal q.2 :=
      fun q hq => h q (List.mem_cons_of_mem p hq)
    have hline := headerLine_no_crlf p hp.1 hp.2
    cases t with
    | nil =>
      show parse_headers (headerLine p ++ "\r\n\r\n".data) = _
      have : headerLine p ++ "\r\n\r\n".data
          = headerLine p ++ '\r' :: '\n' :: ['\r', '\n'] := rfl
      rw [parse_headers, this, splitCRLF_append _ _ hline]
      rw [show splitCRLF ['\r', '\n'] = [[], []] from rfl]
      rw [parse_header_lines_cons p _ hp.1]
      rfl
    | cons q t2 =>
      show parse_headers
        ((headerLine p ++ '\r' :: '\n' :: joinCRLF ((q :: t2).map headerLine))
          ++ "\r\n\r\n".data) = _
      rw [parse_headers, List.append_assoc]
      have hmid : '\r' :: '\n' :: joinCRLF ((q :: t2).map headerLine) ++ "\r\n\r\n".data
          = '\r' :: '\n' :: (joinCRLF ((q :: t2).map headerLine) ++ "\r\n\r\n".data) := rfl
      rw [hmid, splitCRLF_append _ _ hline]
      rw [parse_header_lines_cons p _ hp.1]
      have hrec := ih ht
      rw [parse_headers] at hrec
      have hrec2 : parse_header_lines
          (splitCRLF (joinCRLF ((q :: t2).map headerLine) ++ "\r\n\r\n".data))
          = Except.ok ((q :: t2).map fun p => (p.1, ' ' :: p.2)) := hrec
      rw [hrec2]
      rfl

/-- Witness for the amended round-trip law at a concrete header block. -/
theorem C3_serialise_then_parse_witness :
    parse_headers (to_raw_headers [("Host".data, " example.com".data)])
      = .ok [("Host".data, ' ' :: " example.com".data)] :=
  C3_serialise_then_parse [("Host".data, " example.com".data)] (by decide)

/-! ### `tls_store.py`

Certificates and keys are abstracted: a certificate object is represented
by its PEM bytes (so `public_bytes(Encoding.PEM)` is the identity and
`load_pem_x509_certificate` its inverse, the round-trip contract of the
`cryptography` library), an EC private key by its raw material, and a leaf
record minted by `_generate_cert` by a fresh numeric identity drawn from a
counter.  The `mintLog` field is instrumentation recording every call of
`_generate_cert`. -/

/-- In-memory state of a `TLSStore`. -/
structure TLSStoreM where
  caKey : Bytes
  caCert : Bytes
  leafStore : List (Bytes × Nat)
  nextLeafId : Nat
  mintLog : List (Bytes × Nat)
  deriving DecidableEq, Repr

/-- Embedding of `TLSStore.__init__` (`tls_store.py` lines 24-37).  The
value that `self._generate_ca()` would produce is passed in as `freshCA`
(key generation is external randomness). -/
def tlsstore_init (ca_key : Option Bytes) (ca_cert : Option Bytes)
    (freshCA : Bytes × Bytes) : Except PyExc TLSStoreM :=
  if (ca_key.isNone ≠ ca_cert.isNone) then .error .valueError
  else
    match ca_key, ca_cert with
    | some k, some c => .ok ⟨k, c, [], 0, []⟩
    | _, _ => .ok ⟨freshCA.1, freshCA.2, [], 0, []⟩

/-- Embedding of `TLSStore._generate_cert` (`tls_store.py` lines 88-161):
mints a fresh leaf record (abstracted by the next counter value) and logs
the minting. -/
def generate_cert (domain : Bytes) (st : TLSStoreM) : Nat × TLSStoreM :=
  (st.nextLeafId,
    { st with
      nextLeafId := st.nextLeafId + 1
      mintLog := st.mintLog ++ [(domain, st.nextLeafId)] })

/-- First-match association lookup, the embedding of `dict` indexing for
the certificate cache. -/
def lookupStore (store : List (Bytes × Nat)) (d : Bytes) : Option Nat :=
  match store with
  | [] => none
  | e :: rest => if e.1 = d then some e.2 else lookupStore rest d

/-- Embedding of `TLSStore.get_ssl_context` (`tls_store.py` lines 172-200).
Python evaluates the default argument of
`self._store.setdefault(domain, self._generate_cert(domain))` eagerly, so
`_generate_cert` runs on every call; `setdefault` then returns the cached
record when one exists, otherwise inserts the freshly minted one.  The
returned `Nat` identifies the leaf whose certificate and key are loaded
into the returned SSL context. -/
def get_ssl_context (domain : Bytes) (st : TLSStoreM) : Nat × TLSStoreM :=
  let minted := generate_cert domain st
  match lookupStore minted.2.leafStore domain with
  | some leaf => (leaf, minted.2)
  | none =>
    (minted.1, { minted.2 with leafStore := minted.2.leafStore ++ [(domain, minted.1)] })

/-! ### Claim C4: idempotent minting of leaf certificates -/

/-- A store as freshly constructed with a generated CA. -/
def c4Store : TLSStoreM := ⟨"K".data, "C".data, [], 0, []⟩

/-- Claim C4 (code bug): calling `get_ssl_context("h")` twice on a fresh
store returns the identical cached leaf both times (leaf 0), but
`_generate_cert("h")` runs on each call — the second minted leaf (1) is
discarded — because `dict.setdefault` evaluates its default argument
eagerly.  The claim and the method's docstring say a certificate is
generated only when none is cached. -/
theorem C4_second_call_mints_again :
    (get_ssl_context "h".data c4Store).1 = 0 ∧
    (get_ssl_context "h".data (get_ssl_context "h".data c4Store).2).1 = 0 ∧
    (get_ssl_context "h".data (get_ssl_context "h".data c4Store).2).2.mintLog
      = [("h".data, 0), ("h".data, 1)] := by
  refine ⟨rfl, rfl, rfl⟩

/-! ### Claim C9: CA save / load round-trip -/

/-- A private key object as returned by
`serialization.load_pem_private_key`: either an EC key or some other key
type (the `isinstance` check in the source distinguishes exactly these). -/
inductive LoadedKey where
  | ecKey (material : Bytes)
  | otherKey (material : Bytes)
  deriving DecidableEq, Repr

/-- PKCS#8 PEM serialisation of an EC private key, abstracted as a tagged
copy of the key material (`cryptography` library collaborator). -/
def private_bytes_pkcs8 (material : Bytes) : Bytes :=
  'E' :: material

/-- PEM parse of a private key: the inverse of the serialisations above;
anything unrecognisable raises `ValueError` (`cryptography` collaborator). -/
def load_pem_private_key (b : Bytes) : Except PyExc LoadedKey :=
  match b with
  | 'E' :: m => .ok (.ecKey m)
  | 'R' :: m => .ok (.otherKey m)
  | _ => .error .valueError

/-- `Certificate.public_bytes(Encoding.PEM)`: a certificate object is
abstracted by its PEM bytes, so this is the identity. -/
def public_bytes_pem (cert : Bytes) : Bytes := cert

/-- `x509.load_pem_x509_certificate`, on the same abstraction. -/
def load_pem_x509_certificate (b : Bytes) : Except PyExc Bytes := .ok b

/-- Embedding of `TLSStore.save_ca_to_disk` (`tls_store.py` lines 202-222):
the pair of byte strings written to the key file and the cert file. -/
def save_ca_to_disk (st : TLSStoreM) : Bytes × Bytes :=
  (private_bytes_pkcs8 st.caKey, public_bytes_pem st.caCert)

/-- Embedding of `TLSStore.load_ca_from_disk` (`tls_store.py` lines
224-257): parse the key, reject non-EC keys with `ValueError`, parse the
certificate, construct the store through `__init__`. -/
def load_ca_from_disk (keyBytes certBytes : Bytes) (freshCA : Bytes × Bytes) :
    Except PyExc TLSStoreM :=
  match load_pem_private_key keyBytes with
  | .error e => .error e
  | .ok (.otherKey _) => .error .valueError
  | .ok (.ecKey m) =>
    match load_pem_x509_certificate certBytes with
    | .error e => .error e
    | .ok c => tlsstore_init (some m) (some c) freshCA

/-- Embedding of `TLSStore.get_ca_pem` (`tls_store.py` lines 163-170). -/
def get_ca_pem (st : TLSStoreM) : Bytes :=
  public_bytes_pem st.caCert

/-- Claim C9: saving the CA and loading it back yields a store with the
same CA certificate PEM, and loading a non-EC (for example RSA) private
key fails with `ValueError`. -/
theorem C9_save_load_roundtrip (st : TLSStoreM) (fresh : Bytes × Bytes)
    (rsaMaterial certBytes : Bytes) :
    (load_ca_from_disk (save_ca_to_disk st).1 (save_ca_to_disk st).2 fresh).map get_ca_pem
        = .ok (get_ca_pem st) ∧
    load_ca_from_disk ('R' :: rsaMaterial) certBytes fresh = .error .valueError := by
  constructor
  · rfl
  · rfl

/-! ### Claim C10: `TLSStore.__init__` argument validation -/

/-- Claim C10: providing exactly one of `ca_key` and `ca_cert` raises
`ValueError`; providing neither generates and installs a fresh CA;
providing both installs them unchanged. -/
theorem C10_init_cases (k c : Bytes) (fresh : Bytes × Bytes) :
    tlsstore_init (some k) none fresh = .error .valueError ∧
    tlsstore_init none (some c) fresh = .error .valueError ∧
    tlsstore_init none none fresh = .ok ⟨fresh.1, fresh.2, [], 0, []⟩ ∧
    tlsstore_init (some k) (some c) fresh = .ok ⟨k, c, [], 0, []⟩ := by
  refine ⟨rfl, rfl, rfl, rfl⟩

/-! ### `server.py`

The asyncio stream reader is modelled as the remaining byte stream; the
per-connection side effects (writes to the client, the TLS upgrade, the
handler callback) are recorded as events. -/

/-- `StreamReader.readline()`: everything up to and including the first
`\n`, the whole rest at EOF without one, `b""` at EOF. -/
def readLine : Bytes → Bytes × Bytes
  | [] => ([], [])
  | c :: rest =>
    if c = '\n' then ([c], rest)
    else
      let p := readLine rest
      (c :: p.1, p.2)

/-- `StreamReader.readuntil(b"\r\n\r\n")`: the data up to and including
the separator, or `IncompleteReadError` when the stream ends first. -/
def readUntilCRLFCRLF : Bytes → Except PyExc (Bytes × Bytes)
  | [] => .error .incompleteReadError
  | c :: rest =>
    if c = '\r' ∧ rest.take 3 = ['\n', '\r', '\n'] then
      .ok (['\r', '\n', '\r', '\n'], rest.drop 3)
    else
      match readUntilCRLFCRLF rest with
      | .error e => .error e
      | .ok p => .ok (c :: p.1, p.2)

/-- The request object held by a handler, with the fields the source sets
on `HTTPRequest` plus the `path` attribute the forwarder reads (the spec's
`url` field: the original request target). -/
structure HTTPRequest where
  method : Bytes
  version : Bytes
  scheme : Bytes
  host : PyVal
  port : PyVal
  headers : List (Bytes × Bytes)
  path : Bytes
  deriving DecidableEq, Repr

/-- Modelled from the spec: `HTTPRequest.parse_host` is called by
`_parse_request` (`server.py` line 26) but is not among the sources.  Per
the spec's data model the request's host comes from the request target
when the target carries one; the only other information available to the
method is the header block, so when the request line yielded no host the
first `Host:` header (stripped, split at a colon into host and decimal
port) fills `host` and `port`, and a request line that already determined
`host` is left untouched. -/
def parse_host (r : HTTPRequest) : HTTPRequest :=
  match r.host with
  | PyVal.vNone =>
    (match get_first_header r.headers "host".data with
     | none => r
     | some v =>
       let t := pyStrip v
       match splitOnceChar ':' t with
       | some hp =>
         (match pyInt 10 hp.2 with
          | some n => { r with host := PyVal.vStr hp.1, port := PyVal.vInt n }
          | none => { r with host := PyVal.vStr hp.1 })
       | none => { r with host := PyVal.vStr t })
  | _ => r

/-- Embedding of `_parse_request` (`server.py` lines 9-27): read the
request line (ConnectionError if the client closed first), parse it, read
the header block up to `\r\n\r\n`, parse it, then `parse_host`; returns
the request and the unconsumed stream. -/
def parse_request_stream (s : Bytes) : Except PyExc (HTTPRequest × Bytes) :=
  let rl := readLine s
  if rl.1 = [] then .error .connectionError
  else
    match parse_request_line rl.1 with
    | .error e => .error e
    | .ok q =>
      match readUntilCRLFCRLF rl.2 with
      | .error e => .error e
      | .ok hb =>
        match parse_headers hb.1 with
        | .error e => .error e
        | .ok hs =>
          .ok (parse_host ⟨q.method, q.version, q.scheme, q.host, q.port, hs, q.target⟩,
               hb.2)

/-- Connection-level events of `proxy_handler` / `handle_connection`. -/
inductive CEv where
  | builderCall
  | cWrite (b : Bytes)
  | startTLS (serverHostname : PyVal)
  | connected (request : HTTPRequest)
  | writerClose
  deriving DecidableEq, Repr

/-- Connection outcome. -/
inductive CRes where
  | ok
  | exc (e : PyExc)
  deriving DecidableEq, Repr

/-- Embedding of the CONNECT branch of `handle_connection` (`server.py`
lines 62-77): write the 200 reply, upgrade TLS with
`server_hostname=initial_request.host`, re-parse the request from the
decrypted inner stream, copy `port` from the initial request, force
`scheme = "https"`, hand the request to the handler
(`proxy.client_connected()`); `with closing(writer)` closes the client
writer on every exit. -/
def handleConnectBranch (initial : HTTPRequest) (inner : Bytes) : List CEv × CRes :=
  let ev0 := [CEv.cWrite "HTTP/1.1 200 Connection Established\r\n\r\n".data,
              CEv.startTLS initial.host]
  match parse_request_stream inner with
  | .error e => (ev0 ++ [CEv.writerClose], .exc e)
  | .ok r =>
    let request := { r.1 with port := initial.port, scheme := "https".data }
    (ev0 ++ [CEv.connected request, CEv.writerClose], .ok)

/-- Embedding of `proxy_handler` plus `handle_connection` (`server.py`
lines 45-79): the handler is built by `handler_builder()` as soon as the
connection is accepted, before any byte is read; then the initial request
is parsed and the CONNECT or direct branch runs.  `outer` is the client
byte stream, `inner` the plaintext stream after a TLS upgrade. -/
def proxyConnection (outer inner : Bytes) : List CEv × CRes :=
  match parse_request_stream outer with
  | .error e => ([CEv.builderCall, CEv.writerClose], .exc e)
  | .ok r =>
    if r.1.method = "CONNECT".data then
      let t := handleConnectBranch r.1 inner
      (CEv.builderCall :: t.1, t.2)
    else
      ([CEv.builderCall, CEv.connected r.1, CEv.writerClose], .ok)

/-! ### Claim C2: authority of a request after a CONNECT upgrade -/

/-- The CONNECT target of `CONNECT example.com:443 HTTP/1.1` as the spec's
request-line rules parse it (host before the last colon, decimal port,
scheme `https`); the source's own parse of the CONNECT line raises, see
`C1_connect_parse_raises`. -/
def c2Initial : HTTPRequest :=
  ⟨"CONNECT".data, "HTTP/1.1".data, "https".data,
   PyVal.vStr "example.com".data, PyVal.vInt 443, [], "example.com:443".data⟩

/-- An inner request whose absolute-form target and `Host:` header name a
different origin than the CONNECT target. -/
def c2Inner : Bytes :=
  "GET http://evil.com/ HTTP/1.1\r\nHost: evil.com\r\n\r\n".data

/-- The request the handler receives in that scenario. -/
def c2Handed : HTTPRequest :=
  ⟨"GET".data, "HTTP/1.1".data, "https".data,
   PyVal.vStr "evil.com".data, PyVal.vInt 443,
   [("Host".data, " evil.com".data)], "http://evil.com/".data⟩

/-- Claim C2 counterexample: `handle_connection` copies only `port` and
`scheme` from the CONNECT target, not `host`; the request handed to the
handler carries the inner request's own authority (`evil.com`), so after
the upgrade `host` does not equal the host parsed from the CONNECT target. -/
theorem C2_inner_authority_kept :
    handleConnectBranch c2Initial c2Inner
      = ([CEv.cWrite "HTTP/1.1 200 Connection Established\r\n\r\n".data,
          CEv.startTLS (PyVal.vStr "example.com".data),
          CEv.connected c2Handed, CEv.writerClose], .ok) ∧
    c2Handed.port = c2Initial.port ∧
    c2Handed.host ≠ c2Initial.host := by
  refine ⟨rfl, rfl, by decide⟩

/-- Claim C2 amended: after a CONNECT upgrade the request handed to the
handler has `port` copied from the CONNECT target and `scheme` forced to
`https`, regardless of the inner request; its `host` is whatever the inner
request's own parse produced and is not taken from the CONNECT target. -/
theorem C2_upgrade_port_scheme (initial : HTTPRequest) (inner : Bytes)
    (request : HTTPRequest)
    (h : CEv.connected request ∈ (handleConnectBranch initial inner).1) :
    request.port = initial.port ∧ request.scheme = "https".data := by
  unfold handleConnectBranch at h
  cases hp : parse_request_stream inner with
  | error e =>
    rw [hp] at h
    simp at h
  | ok r =>
    rw [hp] at h
    simp at h
    subst h
    exact ⟨rfl, rfl⟩

/-- Witness for the amended C2 theorem at the concrete scenario. -/
theorem C2_upgrade_port_scheme_witness :
    c2Handed.port = c2Initial.port ∧ c2Handed.scheme = "https".data :=
  C2_upgrade_port_scheme c2Initial c2Inner c2Handed (by decide)

/-! ### Claim C8: client disconnect before a request line -/

/-- Claim C8 counterexample: on a connection whose client stream is empty
the handler object is nevertheless constructed — `proxy_handler` calls
`handler_builder()` before any byte is read — so "no handler is
constructed" fails; the connection then dies with `ConnectionError`,
writing nothing and invoking no callback. -/
theorem C8_builder_runs_before_read :
    proxyConnection [] [] = ([CEv.builderCall, CEv.writerClose], .exc .connectionError) ∧
    CEv.builderCall ∈ (proxyConnection [] []).1 := by
  refine ⟨rfl, by decide⟩

/-- Claim C8 amended: when the client closes before sending a request
line, a handler instance has already been built, but the connection
terminates silently apart from that: nothing is written to the client, no
callback (in particular no `client_connected`) is invoked on the handler,
the writer is closed, and the per-connection task fails with the
`ConnectionError` that the acceptor isolates from the listening server. -/
theorem C8_silent_termination (inner : Bytes) :
    proxyConnection [] inner
      = ([CEv.builderCall, CEv.writerClose], .exc .connectionError) := rfl

/-! ### `https_forward_proxy_handler.py` and the handler base class

The upstream reader is the remaining upstream byte stream; `read(n)` is
deterministic (everything still in the stream is available, a short read
happens only at EOF).  Side effects are recorded as events; the
`on_response_chunk` hook is a parameter of type `Hook` so that handler
overrides, including raising ones, are quantified over.  The loops carry
explicit fuel; callers pass more fuel than the stream length, so fuel can
run out only where the Python genuinely loops forever on a truncated
stream (`readline` returning `b""` at EOF for ever), reported as
`FRes.hang`. -/

/-- Events of one `forward_http_request` execution. -/
inductive Ev where
  | errHook
  | completeHook
  | chunkHook (data : Bytes)
  | cWrite (b : Bytes)
  | uWrite (b : Bytes)
  | uDrain
  | cFlush
  deriving DecidableEq, Repr

/-- Outcome of a forwarder stage. -/
inductive FRes where
  | ok
  | exc (e : PyExc)
  | hang
  deriving DecidableEq, Repr

/-- The behaviour of the (overridable) `on_response_chunk` hook: a
processed chunk, `None`, or a raised exception. -/
abbrev Hook := Bytes → Except PyExc (Option Bytes)

/-- `StreamReader.read(n)` with Python `int` argument: a negative size
reads until EOF. -/
def readPy (n : Int) (s : Bytes) : Bytes × Bytes :=
  if n < 0 then (s, []) else (s.take n.toNat, s.drop n.toNat)

/-- Embedding of the header-reading loop of `_read_and_forward_response`
(`https_forward_proxy_handler.py` lines 146-151): concatenate `readline()`
results until a bare CRLF; on a truncated stream the Python loops forever
(`none`). -/
def readHeaderBlock : Nat → Bytes → Option (Bytes × Bytes)
  | 0, _ => none
  | fuel + 1, s =>
    let p := readLine s
    if p.1 = "\r\n".data then some (p.1, p.2)
    else
      match readHeaderBlock fuel p.2 with
      | some q => some (p.1 ++ q.1, q.2)
      | none => none

/-- Embedding of the fixed-length relay loop of `_forward_response_body`
(`https_forward_proxy_handler.py` lines 186-198). -/
def relayFixed (hook : Hook) : Nat → Int → Bytes → List Ev × FRes × Bytes
  | 0, _, s => ([], .hang, s)
  | fuel + 1, remaining, s =>
    if remaining ≤ 0 then ([], .ok, s)
    else
      let rd := readPy (min remaining 4096) s
      if rd.1 = [] then ([], .ok, s)
      else
        match hook rd.1 with
        | .error e => ([Ev.chunkHook rd.1], .exc e, rd.2)
        | .ok (some pc) =>
          let t := relayFixed hook fuel (remaining - rd.1.length) rd.2
          (Ev.chunkHook rd.1 :: Ev.cWrite pc :: t.1, t.2.1, t.2.2)
        | .ok none =>
          let t := relayFixed hook fuel (remaining - rd.1.length) rd.2
          (Ev.chunkHook rd.1 :: t.1, t.2.1, t.2.2)

/-- Embedding of the read-until-EOF relay loop of `_forward_response_body`
(`https_forward_proxy_handler.py` lines 209-217). -/
def relayUntilClose (hook : Hook) : Nat → Bytes → List Ev × FRes × Bytes
  | 0, s => ([], .hang, s)
  | fuel + 1, s =>
    let rd := readPy 4096 s
    if rd.1 = [] then ([], .ok, s)
    else
      match hook rd.1 with
      | .error e => ([Ev.chunkHook rd.1], .exc e, rd.2)
      | .ok (some pc) =>
        let t := relayUntilClose hook fuel rd.2
        (Ev.chunkHook rd.1 :: Ev.cWrite pc :: t.1, t.2.1, t.2.2)
      | .ok none =>
        let t := relayUntilClose hook fuel rd.2
        (Ev.chunkHook rd.1 :: t.1, t.2.1, t.2.2)

/-- Embedding of the trailer loop of `_forward_chunked_response`
(`https_forward_proxy_handler.py` lines 244-249): forward lines until a
bare CRLF; at EOF the Python writes `b""` for ever (fuel exhaustion =
`hang`). -/
def relayTrailers : Nat → Bytes → List Ev × FRes × Bytes
  | 0, s => ([], .hang, s)
  | fuel + 1, s =>
    let p := readLine s
    if p.1 = "\r\n".data then ([Ev.cWrite p.1], .ok, p.2)
    else
      let t := relayTrailers fuel p.2
      (Ev.cWrite p.1 :: t.1, t.2.1, t.2.2)

/-- `int(chunk_size_line.decode().split(";")[0], 16)` of
`_forward_chunked_response` line 239. -/
def chunkDataSize (line : Bytes) : Option Int :=
  match pySplitChar ';' line with
  | first :: _ => pyInt 16 first
  | [] => none

/-- Embedding of `_forward_chunked_response`
(`https_forward_proxy_handler.py` lines 226-269): forward the size line
verbatim, break on an unparsable size, switch to trailers on size 0,
otherwise read `size + 2` bytes, pass the data without its CRLF through
the hook, write the processed data plus the original CRLF (or the CRLF
alone when the hook returns `None`), and forward a short tail verbatim. -/
def relayChunked (hook : Hook) : Nat → Bytes → List Ev × FRes × Bytes
  | 0, s => ([], .hang, s)
  | fuel + 1, s =>
    let p := readLine s
    match chunkDataSize p.1 with
    | none => ([Ev.cWrite p.1], .ok, p.2)
    | some size =>
      if size = 0 then
        let t := relayTrailers fuel p.2
        (Ev.cWrite p.1 :: t.1, t.2.1, t.2.2)
      else
        let rd := readPy (size + 2) p.2
        if rd.1.length ≥ 2 then
          let cdata := rd.1.take (rd.1.length - 2)
          let crlf := rd.1.drop (rd.1.length - 2)
          match hook cdata with
          | .error e => ([Ev.cWrite p.1, Ev.chunkHook cdata], .exc e, rd.2)
          | .ok (some pc) =>
            let t := relayChunked hook fuel rd.2
            (Ev.cWrite p.1 :: Ev.chunkHook cdata :: Ev.cWrite (pc ++ crlf) :: t.1,
             t.2.1, t.2.2)
          | .ok none =>
            let t := relayChunked hook fuel rd.2
            (Ev.cWrite p.1 :: Ev.chunkHook cdata :: Ev.cWrite crlf :: t.1, t.2.1, t.2.2)
        else
          let t := relayChunked hook fuel rd.2
          (Ev.cWrite p.1 :: Ev.cWrite rd.1 :: t.1, t.2.1, t.2.2)

/-- Python `str.split()` without arguments: split on whitespace runs. -/
def pySplitWS : Bytes → List Bytes
  | [] => []
  | c :: rest =>
    if pySpace c then pySplitWS rest
    else
      match rest with
      | [] => [[c]]
      | d :: _ =>
        if pySpace d then [c] :: pySplitWS rest
        else consHead c (pySplitWS rest)

/-- `" ".join`. -/
def joinSpace : List Bytes → Bytes
  | [] => []
  | [w] => w
  | w :: w2 :: ws => w ++ ' ' :: joinSpace (w2 :: ws)

/-- Modelled from the spec: `HTTPResponse.parse_status_line` lives in the
missing `http_response.py`; per the spec it splits the status line on
whitespace into version, integer status code and reason (the joined
remainder). -/
def parse_status_line (line : Bytes) : Except PyExc (Bytes × Int × Bytes) :=
  match pySplitWS line with
  | v :: code :: rest =>
    match pyInt 10 code with
    | some n => .ok (v, n, joinSpace rest)
    | none => .error .valueError
  | _ => .error .valueError

/-- Substring test (`needle in haystack` on Python strings). -/
def listStartsWith : Bytes → Bytes → Bool
  | [], _ => true
  | _ :: _, [] => false
  | p :: ps, c :: cs => p == c && listStartsWith ps cs

/-- Substring occurrence, scanning left to right. -/
def containsSub (pat : Bytes) : Bytes → Bool
  | [] => pat.isEmpty
  | c :: rest => listStartsWith pat (c :: rest) || containsSub pat rest

/-- Embedding of `await self.flush_response()`
(`https_forward_proxy_handler.py` line 219): runs only when the relay
returned normally; a failing client drain raises inside the `try`. -/
def flushAfter (flushC : Except PyExc Unit) (t : List Ev × FRes × Bytes) :
    List Ev × FRes × Bytes :=
  match t.2.1 with
  | FRes.ok =>
    match flushC with
    | .ok _ => (t.1 ++ [Ev.cFlush], FRes.ok, t.2.2)
    | .error e => (t.1 ++ [Ev.cFlush], FRes.exc e, t.2.2)
  | r => (t.1, r, t.2.2)

/-- Embedding of the `try` part of `_forward_response_body`
(`https_forward_proxy_handler.py` lines 177-219): pick the relay mode from
the response headers (`Content-Length` first, else chunked when
`Transfer-Encoding` contains `chunked` case-insensitively, else read to
EOF), then flush.  `headers.first` of the missing `HTTPHeaders` class is
modelled from the spec as the case-insensitive earliest lookup
(`get_first_header`). -/
def forward_response_body_inner (hook : Hook) (flushC : Except PyExc Unit)
    (respHeaders : List (Bytes × Bytes)) (s : Bytes) : List Ev × FRes × Bytes :=
  match get_first_header respHeaders "Content-Length".data with
  | some clv =>
    match pyInt 10 clv with
    | none => ([], .exc .valueError, s)
    | some n => flushAfter flushC (relayFixed hook (s.length + 1) n s)
  | none =>
    match get_first_header respHeaders "Transfer-Encoding".data with
    | some te =>
      if containsSub "chunked".data (te.map Char.toLower) then
        flushAfter flushC (relayChunked hook (s.length + 1) s)
      else flushAfter flushC (relayUntilClose hook (s.length + 1) s)
    | none => flushAfter flushC (relayUntilClose hook (s.length + 1) s)

/-- Embedding of `_forward_response_body` with its `finally`
(`https_forward_proxy_handler.py` lines 220-224): whenever the `try` part
finishes (normally or raising), the `_response_complete` flag is still
false here, so `on_response_complete` runs exactly once. -/
def forward_response_body (hook : Hook) (flushC : Except PyExc Unit)
    (respHeaders : List (Bytes × Bytes)) (s : Bytes) : List Ev × FRes × Bytes :=
  let t := forward_response_body_inner hook flushC respHeaders s
  match t.2.1 with
  | FRes.hang => t
  | _ => (t.1 ++ [Ev.completeHook], t.2.1, t.2.2)

/-- Lines 154-155 of `_read_and_forward_response`: parse the accumulated
header bytes without their final CRLF when they are more than whitespace;
the spec-modelled response object starts with an empty header list. -/
def parse_resp_headers (hdata : Bytes) : Except PyExc (List (Bytes × Bytes)) :=
  if pyStrip hdata = [] then Except.ok []
  else parse_headers (hdata.take (hdata.length - 2))

/-- Embedding of `_read_and_forward_response`
(`https_forward_proxy_handler.py` lines 131-170): status line (empty ⇒
`ConnectionError`), header block, `on_response_received`, then write the
status line and re-serialised headers to the client and relay the body.
The returned flag is `self._response_complete` on exit. -/
def read_and_forward_response (onRecv : Except PyExc Unit) (hook : Hook)
    (flushC : Except PyExc Unit) (s : Bytes) : List Ev × FRes × Bool :=
  let st := readLine s
  if st.1 = [] then ([], .exc .connectionError, false)
  else
    match parse_status_line st.1 with
    | .error e => ([], .exc e, false)
    | .ok _ =>
      match readHeaderBlock (st.2.length + 1) st.2 with
      | none => ([], .hang, false)
      | some hb =>
        match parse_resp_headers hb.1 with
        | .error e => ([], .exc e, false)
        | .ok headers =>
          match onRecv with
          | .error e => ([], .exc e, false)
          | .ok _ =>
            let wevs := Ev.cWrite st.1 ::
              (headers.map fun kv => Ev.cWrite (kv.1 ++ ':' :: ' ' :: kv.2 ++ "\r\n".data))
              ++ [Ev.cWrite "\r\n".data]
            let t := forward_response_body hook flushC headers hb.2
            (wevs ++ t.1, t.2.1, !(t.2.1 == FRes.hang))

/-- Embedding of the loop of `HTTPSProxyHandler.read_request_body`
(`https_proxy_handler.py` lines 52-60): the chunks a `Content-Length`
bounded body yields.  The loop always breaks at EOF or on an exhausted
length, so the fuel (stream length plus one) never runs out. -/
def read_request_body_loop : Nat → Int → Bytes → List Bytes
  | 0, _, _ => []
  | fuel + 1, length, s =>
    let rd := readPy (min length 4096) s
    if rd.1 = [] then []
    else if length - rd.1.length ≤ 0 then [rd.1]
    else rd.1 :: read_request_body_loop fuel (length - rd.1.length) rd.2

/-- Embedding of `HTTPSProxyHandler.read_request_body`
(`https_proxy_handler.py` lines 40-60): no `Content-Length` means an empty
body; a malformed one raises `ValueError` from `int()`.  `headers.first`
is the spec-modelled case-insensitive lookup. -/
def read_request_body (req : HTTPRequest) (clientBody : Bytes) :
    Except PyExc (List Bytes) :=
  match get_first_header req.headers "Content-Length".data with
  | none => .ok []
  | some v =>
    match pyInt 10 v with
    | none => .error .valueError
    | some n => .ok (read_request_body_loop (clientBody.length + 1) n clientBody)

/-- Environment of one `forward_http_request` call: the request attached
to the handler, the client body stream, the outcomes of the effectful
collaborators (upstream connect, drains, `on_response_received`, closing)
and the upstream response stream. -/
structure FwdEnv where
  request : HTTPRequest
  clientBody : Bytes
  connect : Except PyExc Unit
  upstream : Bytes
  drainUp : Except PyExc Unit
  onRecv : Except PyExc Unit
  hook : Hook
  flushC : Except PyExc Unit
  closeUp : Except PyExc Unit

/-- Embedding of the `finally` of `forward_http_request`
(`https_forward_proxy_handler.py` lines 120-129): closing the upstream
writer; a close error is routed to `on_error` and swallowed. -/
def closeEvs (env : FwdEnv) : List Ev :=
  match env.closeUp with
  | .ok _ => []
  | .error _ => [Ev.errHook]

/-- `f"{method} {path} {version}\r\n"` of line 95-97; `request.path` is
the spec's `url` field (missing from the `HTTPRequest` of the sources). -/
def requestLineBytes (r : HTTPRequest) : Bytes :=
  r.method ++ ' ' :: r.path ++ ' ' :: r.version ++ "\r\n".data

/-- Embedding of `forward_http_request` after a successful upstream
connection (`https_forward_proxy_handler.py` lines 94-129): send the
request line, headers and body upstream, drain, read and forward the
response; any exception from those steps reaches `except Exception`, which
invokes `on_response_complete` when the flag is still unset, and the
`finally` close always runs. -/
def forward_after_connect (env : FwdEnv) : List Ev × FRes :=
  let evReq := Ev.uWrite (requestLineBytes env.request) ::
    (env.request.headers.map fun kv => Ev.uWrite (kv.1 ++ ':' :: ' ' :: kv.2 ++ "\r\n".data))
    ++ [Ev.uWrite "\r\n".data]
  match read_request_body env.request env.clientBody with
  | .error e => (evReq ++ [Ev.completeHook] ++ closeEvs env, .exc e)
  | .ok chunks =>
    let evs1 := evReq ++ chunks.map Ev.uWrite ++ [Ev.uDrain]
    match env.drainUp with
    | .error e => (evs1 ++ [Ev.completeHook] ++ closeEvs env, .exc e)
    | .ok _ =>
      let t := read_and_forward_response env.onRecv env.hook env.flushC env.upstream
      match t.2.1 with
      | FRes.hang => (evs1 ++ t.1, .hang)
      | FRes.ok => (evs1 ++ t.1 ++ closeEvs env, .ok)
      | FRes.exc e =>
        (evs1 ++ t.1 ++ (if t.2.2 then [] else [Ev.completeHook]) ++ closeEvs env, .exc e)

/-- Embedding of `forward_http_request`
(`https_forward_proxy_handler.py` lines 64-129).  For an HTTPS request an
`ssl.SSLError` from `open_connection` is caught: `on_error` runs and the
method returns (the upstream writer was never set, so the `finally` close
is a no-op); any other connect exception propagates into the outer
`except Exception`, which runs `on_response_complete` and re-raises. -/
def forward_http_request (env : FwdEnv) : List Ev × FRes :=
  if env.request.scheme = "https".data then
    match env.connect with
    | .error PyExc.sslError => ([Ev.errHook], .ok)
    | .error e => ([Ev.completeHook], .exc e)
    | .ok _ => forward_after_connect env
  else
    match env.connect with
    | .error e => ([Ev.completeHook], .exc e)
    | .ok _ => forward_after_connect env

/-! ### Claim C6: upstream connect / TLS failure -/

/-- A minimal HTTPS request attached to the handler. -/
def c6Request : HTTPRequest :=
  ⟨"GET".data, "HTTP/1.1".data, "https".data,
   PyVal.vStr "example.com".data, PyVal.vInt 443, [], "/".data⟩

/-- An environment whose upstream connect raises a non-TLS `OSError`
(for example a refused connection). -/
def c6Env : FwdEnv :=
  ⟨c6Request, [], .error .osError, [], .ok (), .ok (),
   fun b => .ok (some b), .ok (), .ok ()⟩

/-- Claim C6 counterexample: a plain connect failure (`OSError`, not
`ssl.SSLError`) is not caught by the `except ssl.SSLError` handler, so
`on_error` is never invoked and the outer `except Exception` invokes
`on_response_complete` before re-raising — the opposite of the claim on
both counts (nothing is written to the client, as claimed). -/
theorem C6_plain_connect_error :
    forward_http_request c6Env = ([Ev.completeHook], .exc .osError) ∧
    Ev.errHook ∉ (forward_http_request c6Env).1 := by
  refine ⟨rfl, by decide⟩

/-- Claim C6 amended: for an HTTPS upstream, an `ssl.SSLError` during the
connect/handshake invokes `on_error`, writes nothing to the client and
does not invoke `on_response_complete` (the forwarder returns normally);
any other connect failure writes nothing and is not routed to `on_error` —
it propagates as an exception, and on that path `on_response_complete` is
invoked before the re-raise. -/
theorem C6_connect_failure_behaviour (env : FwdEnv)
    (hscheme : env.request.scheme = "https".data) :
    (env.connect = .error .sslError →
      forward_http_request env = ([Ev.errHook], .ok)) ∧
    (∀ e, e ≠ PyExc.sslError → env.connect = .error e →
      forward_http_request env = ([Ev.completeHook], .exc e)) := by
  constructor
  · intro hconn
    rw [forward_http_request, if_pos hscheme, hconn]
  · intro e he hconn
    rw [forward_http_request, if_pos hscheme, hconn]
    cases e with
    | valueError => rfl
    | connectionError => rfl
    | incompleteReadError => rfl
    | sslError => exact absurd rfl he
    | osError => rfl

/-- The same environment with a TLS handshake failure. -/
def c6SslEnv : FwdEnv :=
  ⟨c6Request, [], .error .sslError, [], .ok (), .ok (),
   fun b => .ok (some b), .ok (), .ok ()⟩

/-- Witness for the amended C6 theorem. -/
theorem C6_connect_failure_behaviour_witness :
    forward_http_request c6SslEnv = ([Ev.errHook], .ok) :=
  (C6_connect_failure_behaviour c6SslEnv rfl).1 rfl

/-! ### Claim C5: `on_response_complete` exactly once -/

lemma relayFixed_no_complete (hook : Hook) (fuel : Nat) :
    ∀ (n : Int) (s : Bytes), Ev.completeHook ∉ (relayFixed hook fuel n s).1 := by
  induction fuel with
  | zero => intro n s; simp [relayFixed]
  | succ f ih =>
    intro n s
    simp only [relayFixed]
    split
    · simp
    · split
      · simp
      · split
        · simp
        · simp [ih]
        · simp [ih]

lemma relayUntilClose_no_complete (hook : Hook) (fuel : Nat) :
    ∀ (s : Bytes), Ev.completeHook ∉ (relayUntilClose hook fuel s).1 := by
  induction fuel with
  | zero => intro s; simp [relayUntilClose]
  | succ f ih =>
    intro s
    simp only [relayUntilClose]
    split
    · simp
    · split
      · simp
      · simp [ih]
      · simp [ih]

lemma relayTrailers_no_complete (fuel : Nat) :
    ∀ (s : Bytes), Ev.completeHook ∉ (relayTrailers fuel s).1 := by
  induction fuel with
  | zero => intro s; simp [relayTrailers]
  | succ f ih =>
    intro s
    simp only [relayTrailers]
    split
    · simp
    · simp [ih]

lemma relayChunked_no_complete (hook : Hook) (fuel : Nat) :
    ∀ (s : Bytes), Ev.completeHook ∉ (relayChunked hook fuel s).1 := by
  induction fuel with
  | zero => intro s; simp [relayChunked]
  | succ f ih =>
    intro s
    simp only [relayChunked]
    split
    · simp
    · split
      · simp [relayTrailers_no_complete]
      · split
        · split
          · simp
          · simp [ih]
          · simp [ih]
        · simp [ih]

lemma flushAfter_no_complete (flushC : Except PyExc Unit) (t : List Ev × FRes × Bytes)
    (h : Ev.completeHook ∉ t.1) : Ev.completeHook ∉ (flushAfter flushC t).1 := by
  cases ht : t.2.1 with
  | ok => simp only [flushAfter, ht]; cases flushC <;> simp [h]
  | exc e => simp only [flushAfter, ht]; exact h
  | hang => simp only [flushAfter, ht]; exact h

lemma forward_response_body_inner_no_complete (hook : Hook) (flushC : Except PyExc Unit)
    (respHeaders : List (Bytes × Bytes)) (s : Bytes) :
    Ev.completeHook ∉ (forward_response_body_inner hook flushC respHeaders s).1 := by
  simp only [forward_response_body_inner]
  split
  · split
    · simp
    · exact flushAfter_no_complete _ _ (relayFixed_no_complete hook _ _ _)
  · split
    · split
      · exact flushAfter_no_complete _ _ (relayChunked_no_complete hook _ _)
      · exact flushAfter_no_complete _ _ (relayUntilClose_no_complete hook _ _)
    · exact flushAfter_no_complete _ _ (relayUntilClose_no_complete hook _ _)

lemma forward_response_body_count (hook : Hook) (flushC : Except PyExc Unit)
    (respHeaders : List (Bytes × Bytes)) (s : Bytes)
    (h : (forward_response_body hook flushC respHeaders s).2.1 ≠ FRes.hang) :
    (forward_response_body hook flushC respHeaders s).1.count Ev.completeHook = 1 := by
  have hin := forward_response_body_inner_no_complete hook flushC respHeaders s
  cases hi : (forward_response_body_inner hook flushC respHeaders s).2.1 with
  | hang => exact absurd (by simp only [forward_response_body, hi]) h
  | ok =>
    simp only [forward_response_body, hi]
    simp [List.count_append, List.count_eq_zero.mpr hin]
  | exc e =>
    simp only [forward_response_body, hi]
    simp [List.count_append, List.count_eq_zero.mpr hin]

lemma forward_response_body_hang_events (hook : Hook) (flushC : Except PyExc Unit)
    (respHeaders : List (Bytes × Bytes)) (s : Bytes)
    (h : (forward_response_body hook flushC respHeaders s).2.1 = FRes.hang) :
    Ev.completeHook ∉ (forward_response_body hook flushC respHeaders s).1 := by
  have hin := forward_response_body_inner_no_complete hook flushC respHeaders s
  cases hi : (forward_response_body_inner hook flushC respHeaders s).2.1 with
  | hang => simp only [forward_response_body, hi]; exact hin
  | ok => rw [forward_response_body] at h; simp only [hi] at h; cases h
  | exc e => rw [forward_response_body] at h; simp only [hi] at h; cases h

lemma count_wevs_body (stLine : Bytes) (hook : Hook) (flushC : Except PyExc Unit)
    (headers : List (Bytes × Bytes)) (body : Bytes) :
    ((Ev.cWrite stLine ::
      ((headers.map fun kv => Ev.cWrite (kv.1 ++ ':' :: ' ' :: kv.2 ++ "\r\n".data))
        ++ [Ev.cWrite "\r\n".data]))
      ++ (forward_response_body hook flushC headers body).1).count Ev.completeHook
      = if !((forward_response_body hook flushC headers body).2.1 == FRes.hang)
        then 1 else 0 := by
  have hw : (Ev.cWrite stLine ::
      ((headers.map fun kv => Ev.cWrite (kv.1 ++ ':' :: ' ' :: kv.2 ++ "\r\n".data))
        ++ [Ev.cWrite "\r\n".data])).count Ev.completeHook = 0 :=
    List.count_eq_zero.mpr (by simp)
  rw [List.count_append, hw]
  cases hfb : (forward_response_body hook flushC headers body).2.1 with
  | hang =>
    have h1 := forward_response_body_hang_events hook flushC headers body hfb
    simp [List.count_eq_zero.mpr h1]
  | ok =>
    have hc := forward_response_body_count hook flushC headers body (by rw [hfb]; simp)
    simp [hc]
  | exc e =>
    have hc := forward_response_body_count hook flushC headers body (by rw [hfb]; simp)
    simp [hc]

lemma raf_count (onRecv : Except PyExc Unit) (hook : Hook)
    (flushC : Except PyExc Unit) (s : Bytes) :
    (read_and_forward_response onRecv hook flushC s).1.count Ev.completeHook
      = (if (read_and_forward_response onRecv hook flushC s).2.2 then 1 else 0) := by
  simp only [read_and_forward_response]
  split
  · rfl
  · split
    · rfl
    · split
      · rfl
      · rename_i hb hhb
        split
        · split
          · rename_i hcontra
            split at hcontra <;> simp at hcontra
          · split <;> rfl
        · split
          · rename_i hflag
            split at hflag
            · simp at hflag
            · rename_i headers heq
              simp at hflag
              simpa [hflag] using count_wevs_body (readLine s).1 hook flushC headers hb.2
          · rename_i hflag
            split at hflag
            · rfl
            · rename_i headers heq
              simp at hflag
              have hne := forward_response_body_hang_events hook flushC headers hb.2 hflag
              simp [List.count_eq_zero, hne]

lemma raf_ok_flag (onRecv : Except PyExc Unit) (hook : Hook)
    (flushC : Except PyExc Unit) (s : Bytes) :
    (read_and_forward_response onRecv hook flushC s).2.1 = FRes.ok →
    (read_and_forward_response onRecv hook flushC s).2.2 = true := by
  simp only [read_and_forward_response]
  split
  · simp
  · split
    · simp
    · split
      · simp
      · split
        · intro h
          simp at h
        · intro h
          split at h
          · simp at h
          · simp at h
            simp [h]

lemma count_map_uwrite_fn {α : Type} (f : α → Bytes) (hs : List α) :
    ((hs.map fun kv => Ev.uWrite (f kv)).count Ev.completeHook) = 0 :=
  List.count_eq_zero.mpr (by simp)

lemma count_map_uwrite (chunks : List Bytes) :
    (chunks.map Ev.uWrite).count Ev.completeHook = 0 :=
  List.count_eq_zero.mpr (by simp)

lemma count_closeEvs (env : FwdEnv) : (closeEvs env).count Ev.completeHook = 0 := by
  simp only [closeEvs]
  split <;> rfl

/-- Claim C5: once the upstream connection has been established
(forwarding has begun), every terminating execution of
`forward_http_request` — whatever the request body, the upstream bytes,
the hook behaviour including raising, the drain, flush and close outcomes —
invokes `on_response_complete` exactly once: the body relay's `finally`
fires it at most once, and the outer `except Exception` fires it exactly
when the `_response_complete` flag is still unset. -/
theorem C5_complete_exactly_once (env : FwdEnv)
    (hconn : env.connect = Except.ok ())
    (hterm : (forward_http_request env).2 ≠ FRes.hang) :
    (forward_http_request env).1.count Ev.completeHook = 1 := by
  have hfwd : forward_http_request env = forward_after_connect env := by
    rw [forward_http_request]
    split <;> rw [hconn]
  rw [hfwd] at hterm ⊢
  have hcnt := raf_count env.onRecv env.hook env.flushC env.upstream
  have hflag := raf_ok_flag env.onRecv env.hook env.flushC env.upstream
  revert hterm
  simp only [forward_after_connect]
  split
  · intro _
    simp [List.count_append, List.count_cons, List.count_nil, beq_iff_eq,
      count_map_uwrite_fn, count_closeEvs]
  · split
    · intro _
      simp [List.count_append, List.count_cons, List.count_nil, beq_iff_eq,
        count_map_uwrite_fn, count_closeEvs, count_map_uwrite]
    · split
      · intro hterm
        exact absurd rfl hterm
      · rename_i heq
        intro _
        have hf := hflag heq
        simp [List.count_append, List.count_cons, List.count_nil, beq_iff_eq,
          count_map_uwrite_fn, count_closeEvs, count_map_uwrite, hcnt, hf]
      · intro _
        cases hfl : (read_and_forward_response env.onRecv env.hook env.flushC env.upstream).2.2
        <;> simp [List.count_append, List.count_cons, List.count_nil, beq_iff_eq,
              count_map_uwrite_fn, count_closeEvs, count_map_uwrite, hcnt, hfl]

/-- A concrete environment: plain HTTP request, empty body, upstream
answers `200` with `Content-Length: 0`. -/
def c5Env : FwdEnv :=
  ⟨⟨"GET".data, "HTTP/1.1".data, "http".data, PyVal.vStr "example.com".data,
    PyVal.vInt 80, [], "/".data⟩,
   [], .ok (), "HTTP/1.1 200 OK\r\nContent-Length: 0\r\n\r\n".data,
   .ok (), .ok (), fun b => .ok (some b), .ok (), .ok ()⟩

/-- Witness for C5 at the concrete environment. -/
theorem C5_complete_exactly_once_witness :
    (forward_http_request c5Env).1.count Ev.completeHook = 1 :=
  C5_complete_exactly_once c5Env rfl (by decide)

/-! ### Claim C7: chunked transfer relay -/

/-- A byte string that `readline()` returns in one piece: nonempty, ends
with `\n`, and contains no earlier `\n`. -/
def lineShape (l : Bytes) : Prop :=
  l ≠ [] ∧ l.getLast? = some '\n' ∧ ∀ c ∈ l.dropLast, c ≠ '\n'

instance (l : Bytes) : Decidable (lineShape l) := by
  unfold lineShape; infer_instance

lemma readLine_exact (l : Bytes) (h : lineShape l) :
    ∀ s, readLine (l ++ s) = (l, s) := by
  induction l with
  | nil => exact absurd rfl h.1
  | cons c l ih =>
    intro s
    cases l with
    | nil =>
      have hc : c = '\n' := by
        have h2 := h.2.1
        simp [List.getLast?] at h2
        exact h2
      subst hc
      simp [readLine]
    | cons d l2 =>
      have hcne : c ≠ '\n' := h.2.2 c (by simp [List.dropLast])
      have htail : lineShape (d :: l2) := by
        refine ⟨by simp, ?_, ?_⟩
        · have h2 := h.2.1
          rw [List.getLast?_cons_cons] at h2
          exact h2
        · intro x hx
          exact h.2.2 x (by simp [List.dropLast, hx])
      rw [List.cons_append, readLine, if_neg hcne, ih htail s]

/-- The client-visible events of relaying one well-formed chunk: the size
line verbatim, the hook applied to the data without its CRLF, then the
processed data plus the original CRLF, or the bare CRLF when the hook
returns `None`. -/
def chunkEvents (hk : Bytes → Option Bytes) (c : Bytes × Bytes) : List Ev :=
  match hk c.2 with
  | some pc => [Ev.cWrite c.1, Ev.chunkHook c.2, Ev.cWrite (pc ++ "\r\n".data)]
  | none => [Ev.cWrite c.1, Ev.chunkHook c.2, Ev.cWrite "\r\n".data]

/-- One well-formed chunk on the wire: size line, data, CRLF. -/
def encChunk (c : Bytes × Bytes) : Bytes :=
  c.1 ++ (c.2 ++ "\r\n".data)

/-- A well-formed chunked body: chunks, the terminating size line (of
size 0), trailer lines, and the final bare CRLF. -/
def encChunked (chunks : List (Bytes × Bytes)) (termLine : Bytes)
    (trailers : List Bytes) : Bytes :=
  (chunks.map encChunk).flatten ++ (termLine ++ (trailers.flatten ++ "\r\n".data))

lemma relayTrailers_spec (trailers : List Bytes) :
    ∀ (fuel : Nat) (rest : Bytes),
    (∀ t ∈ trailers, lineShape t ∧ t ≠ "\r\n".data) →
    trailers.length + 1 ≤ fuel →
    relayTrailers fuel (trailers.flatten ++ ("\r\n".data ++ rest))
      = (trailers.map Ev.cWrite ++ [Ev.cWrite "\r\n".data], FRes.ok, rest) := by
  induction trailers with
  | nil =>
    intro fuel rest _ hf
    obtain ⟨f, rfl⟩ : ∃ f, fuel = f + 1 := ⟨fuel - 1, by omega⟩
    simp only [relayTrailers]
    rw [show (([] : List Bytes).flatten ++ ("\r\n".data ++ rest)) = "\r\n".data ++ rest from by
      simp]
    rw [readLine_exact "\r\n".data (by decide) rest]
    simp
  | cons t ts ih =>
    intro fuel rest htr hf
    obtain ⟨f, rfl⟩ : ∃ f, fuel = f + 1 := ⟨fuel - 1, by omega⟩
    have hts := htr t (List.mem_cons_self t ts)
    simp only [relayTrailers, List.flatten_cons, List.append_assoc]
    rw [readLine_exact t hts.1]
    simp only [if_neg hts.2]
    rw [ih f rest (fun x hx => htr x (List.mem_cons_of_mem t hx)) (by simp at hf; omega)]
    simp

lemma relayChunked_term (hook : Hook) (f : Nat) (termLine X : Bytes)
    (hline : lineShape termLine) (hzero : chunkDataSize termLine = some 0) :
    relayChunked hook (f + 1) (termLine ++ X)
      = (Ev.cWrite termLine :: (relayTrailers f X).1,
         (relayTrailers f X).2.1, (relayTrailers f X).2.2) := by
  simp only [relayChunked]
  rw [readLine_exact termLine hline X]
  simp [hzero]

lemma relayChunked_step (hk : Bytes → Option Bytes) (f : Nat) (c : Bytes × Bytes)
    (X : Bytes) (hline : lineShape c.1)
    (hsize : chunkDataSize c.1 = some (c.2.length : Int)) (hne : c.2 ≠ []) :
    relayChunked (fun b => Except.ok (hk b)) (f + 1) (c.1 ++ (c.2 ++ ("\r\n".data ++ X)))
      = (chunkEvents hk c ++ (relayChunked (fun b => Except.ok (hk b)) f X).1,
         (relayChunked (fun b => Except.ok (hk b)) f X).2.1,
         (relayChunked (fun b => Except.ok (hk b)) f X).2.2) := by
  have hlen : c.2.length ≠ 0 := by simpa using hne
  have hnn : ¬ ((c.2.length : Int) + 2 < 0) := by omega
  have htn : ((c.2.length : Int) + 2).toNat = c.2.length + 2 := by omega
  have hassoc : c.2 ++ ("\r\n".data ++ X) = (c.2 ++ "\r\n".data) ++ X := by
    simp [List.append_assoc]
  have hlcrlf : (c.2 ++ "\r\n".data).length = c.2.length + 2 := by simp
  simp only [relayChunked]
  rw [readLine_exact c.1 hline]
  simp only [hsize]
  rw [if_neg (by exact_mod_cast hlen)]
  simp only [readPy, if_neg hnn, htn, hassoc]
  rw [List.take_left' hlcrlf, List.drop_left' hlcrlf]
  rw [if_pos (by simp)]
  simp only [hlcrlf, Nat.add_sub_cancel]
  rw [show (c.2 ++ "\r\n".data).take c.2.length = c.2 from
        List.take_left' rfl,
      show (c.2 ++ "\r\n".data).drop c.2.length = "\r\n".data from
        List.drop_left' rfl]
  cases hhk : hk c.2 with
  | some pc => simp [chunkEvents, hhk]
  | none => simp [chunkEvents, hhk]

/-- Claim C7: on a well-formed chunked body, `_forward_chunked_response`
forwards every size line verbatim (hex size parsed ignoring `;`
extensions), reads exactly `size + 2` bytes per chunk, passes the data
without its CRLF through `on_response_chunk`, writes the processed data
followed by the original CRLF (or the CRLF alone when the hook returns
`None`), and at size 0 forwards the trailer lines up to and including the
bare CRLF, leaving the rest of the stream unread. -/
theorem C7_chunked_relay (hk : Bytes → Option Bytes) (chunks : List (Bytes × Bytes)) :
    ∀ (fuel : Nat) (termLine : Bytes) (trailers : List Bytes) (rest : Bytes),
    (∀ c ∈ chunks, lineShape c.1 ∧ chunkDataSize c.1 = some (c.2.length : Int) ∧ c.2 ≠ []) →
    lineShape termLine ∧ chunkDataSize termLine = some 0 →
    (∀ t ∈ trailers, lineShape t ∧ t ≠ "\r\n".data) →
    chunks.length + trailers.length + 2 ≤ fuel →
    relayChunked (fun b => Except.ok (hk b)) fuel (encChunked chunks termLine trailers ++ rest)
      = ((chunks.map (chunkEvents hk)).flatten
          ++ (Ev.cWrite termLine :: (trailers.map Ev.cWrite ++ [Ev.cWrite "\r\n".data])),
         FRes.ok, rest) := by
  induction chunks with
  | nil =>
    intro fuel termLine trailers rest _ hterm htr hfuel
    obtain ⟨f, rfl⟩ : ∃ f, fuel = f + 1 := ⟨fuel - 1, by omega⟩
    rw [show encChunked [] termLine trailers ++ rest
          = termLine ++ (trailers.flatten ++ ("\r\n".data ++ rest)) from by
        simp [encChunked]]
    rw [relayChunked_term _ f termLine _ hterm.1 hterm.2]
    rw [relayTrailers_spec trailers f rest htr (by simp at hfuel; omega)]
    simp
  | cons c cs ih =>
    intro fuel termLine trailers rest hch hterm htr hfuel
    obtain ⟨f, rfl⟩ : ∃ f, fuel = f + 1 := ⟨fuel - 1, by omega⟩
    obtain ⟨hline, hsize, hne⟩ := hch c (List.mem_cons_self c cs)
    rw [show encChunked (c :: cs) termLine trailers ++ rest
          = c.1 ++ (c.2 ++ ("\r\n".data ++ (encChunked cs termLine trailers ++ rest))) from by
        simp [encChunked, encChunk, List.append_assoc]]
    rw [relayChunked_step hk f c _ hline hsize hne]
    rw [ih f termLine trailers rest (fun x hx => hch x (List.mem_cons_of_mem c hx))
        hterm htr (by simp at hfuel ⊢; omega)]
    simp [List.append_assoc]

/-- Witness for C7: one `5\r\nhello\r\n` chunk, a `0\r\n` terminator, one
trailer line, a bare CRLF, and one extra byte left unread; the hook keeps
the data unchanged. -/
theorem C7_chunked_relay_witness :
    relayChunked (fun b => Except.ok (some b)) 5
        (encChunked [("5\r\n".data, "hello".data)] "0\r\n".data ["X-Info: 1\r\n".data]
          ++ "Z".data)
      = ([Ev.cWrite "5\r\n".data, Ev.chunkHook "hello".data,
          Ev.cWrite "hello\r\n".data, Ev.cWrite "0\r\n".data,
          Ev.cWrite "X-Info: 1\r\n".data, Ev.cWrite "\r\n".data],
         FRes.ok, "Z".data) := by
  have h := C7_chunked_relay (fun b => some b) [("5\r\n".data, "hello".data)] 5
    "0\r\n".data ["X-Info: 1\r\n".data] "Z".data
    (by decide) (by decide) (by decide) (by decide)
  simpa [chunkEvents] using h
